import Mathlib

/-!
cmShell: a shallow embedding of `shell.js`.

The shell reads one line at a time, splits it into tokens, and dispatches it to
the redirection handler, to a built-in, or to an external process.

The embedding keeps the control flow of every function of `shell.js` and records
each call to a platform primitive (`console.log`, `rl.prompt`, `spawn`,
`fs.createWriteStream`, ...) as an `Event`, in program order.  Callbacks that the
program registers for a later moment (a child's `close` event, the completion of
`fs.readdir`) are recorded as a `Callback`; `runCallback` gives the events such a
callback performs when it runs.

JavaScript values of type `string | undefined` are `Option String`, array indices
are `Int` (so that `-1` keeps its meaning), and strings are sequences of
characters.
-/

namespace CmShell

/-! ## JavaScript array and string primitives used by the program -/

/-- Truthiness of a `string | undefined` value: `undefined` and `""` are falsy. -/
def truthy : Option String → Bool
  | none => false
  | some s => decide (s ≠ "")

/-- Worker of `indexOf`: scans from position `i`. -/
def indexOfFrom (x : String) : List String → Nat → Int
  | [], _ => -1
  | a :: rest, i => if a = x then (i : Int) else indexOfFrom x rest (i + 1)

/-- `Array.prototype.indexOf`: the first index holding `x`, or `-1`. -/
def indexOf (xs : List String) (x : String) : Int :=
  indexOfFrom x xs 0

/-- `xs[i]` for an integer `i`: `undefined` outside `0 .. length-1`. -/
def at? (xs : List String) (i : Int) : Option String :=
  if i < 0 then none else xs.get? i.toNat

/-- Clamping of a relative index by `Array.prototype.slice`: a negative index counts
from the end. -/
def relIndex (len : Nat) (i : Int) : Nat :=
  if i < 0 then ((len : Int) + i).toNat else min i.toNat len

/-- `xs.slice(start, stop)`. -/
def slice (xs : List String) (start stop : Int) : List String :=
  (xs.take (relIndex xs.length stop)).drop (relIndex xs.length start)

/-- `xs.slice(start)`. -/
def sliceFrom (xs : List String) (start : Int) : List String :=
  xs.drop (relIndex xs.length start)

/-- `xs.join(sep)`. -/
def join (xs : List String) (sep : String) : String :=
  sep.intercalate xs

/-- The characters `String.prototype.trim` removes: ECMAScript `WhiteSpace` and
`LineTerminator`. -/
def isJsWhitespace (c : Char) : Bool :=
  c.val = 0x09 || c.val = 0x0A || c.val = 0x0B || c.val = 0x0C || c.val = 0x0D ||
  c.val = 0x20 || c.val = 0xA0 || c.val = 0x1680 ||
  (0x2000 ≤ c.val && c.val ≤ 0x200A) ||
  c.val = 0x2028 || c.val = 0x2029 || c.val = 0x202F || c.val = 0x205F ||
  c.val = 0x3000 || c.val = 0xFEFF

/-- Removal of the trailing whitespace of a character sequence. -/
def trimEndChars : List Char → List Char
  | [] => []
  | c :: cs =>
    match trimEndChars cs with
    | [] => if isJsWhitespace c then [] else [c]
    | r :: rs => c :: r :: rs

/-- The character-level `trim`: leading and trailing whitespace removed. -/
def trimChars (cs : List Char) : List Char :=
  trimEndChars (cs.dropWhile isJsWhitespace)

/-- `String.prototype.trim`. -/
def trim (s : String) : String :=
  String.mk (trimChars s.data)

/-- The character-level `split` on a one-character separator: cuts at every
occurrence, keeping empty pieces; the empty sequence gives one empty piece. -/
def splitChars (sep : Char) : List Char → List (List Char)
  | [] => [[]]
  | c :: cs =>
    if c = sep then [] :: splitChars sep cs
    else
      match splitChars sep cs with
      | [] => [[c]]
      | w :: ws => (c :: w) :: ws

/-- `s.split(sep)` for a one-character separator. -/
def split (s : String) (sep : Char) : List String :=
  (splitChars sep s.data).map String.mk

/-! ## Observable events -/

/-- One entry of the `stdio` option of `spawn`. -/
inductive Stdio
  | pipe
  | inherit
  deriving DecidableEq, Repr

/-- The options object passed to `spawn`, with `stdio` spelled out per stream
(`stdio` absent means `pipe` for all three). -/
structure SpawnOptions where
  shell : Bool
  stdin : Stdio
  stdout : Stdio
  stderr : Stdio
  deriving DecidableEq, Repr

/-- Value `{ shell: true }`. -/
def optsShell : SpawnOptions :=
  { shell := true, stdin := Stdio.pipe, stdout := Stdio.pipe, stderr := Stdio.pipe }

/-- Value `{ stdio: "inherit", shell: true }`. -/
def optsInherit : SpawnOptions :=
  { shell := true, stdin := Stdio.inherit, stdout := Stdio.inherit, stderr := Stdio.inherit }

/-- Value `{ shell: true, stdio: ["pipe", "inherit", "inherit"] }`. -/
def optsPipeStdin : SpawnOptions :=
  { shell := true, stdin := Stdio.pipe, stdout := Stdio.inherit, stderr := Stdio.inherit }

/-- A call to a platform primitive. -/
inductive Event
  | consoleLog (text : String)
  | consoleError (text : String)
  | setPrompt (text : String)
  | prompt
  | rlClose
  | processExit (code : Nat)
  | chdir (dir : String)
  | readdir (dir : String)
  | spawn (file : Option String) (args : List String) (options : SpawnOptions)
  | createWriteStream (path : String)
  | createReadStream (path : String)
  | pipeStdoutToFile (path : String)
  | pipeStderrToShell
  | pipeFileToStdin (path : String)
  | closeWriteStream (path : String)
  deriving DecidableEq, Repr

/-- A callback registered for a later moment: the two `close` listeners the program
puts on a child process (`closeRefresh` is `() => { updatePrompt(); }`,
`closeFileRefresh` closes the write stream first), and the callback given to
`fs.readdir`. -/
inductive Callback
  | closeRefresh
  | closeFileRefresh (path : String)
  | readdirDone (dir : String)
  deriving DecidableEq, Repr

/-- How a call ended. -/
inductive Completion (α : Type)
  | returned (value : α)
  | threw (error : String)
  | exited (code : Nat)
  deriving DecidableEq, Repr

/-- The outcome of running a function of the shell: the primitive calls it made, in
order, the callback it left registered, the working directory afterwards, and how
it ended. -/
structure Run (α : Type) where
  events : List Event
  callback : Option Callback
  cwd : String
  completion : Completion α
  deriving DecidableEq, Repr

/-- An entry of a directory listing (`fs.Dirent`). -/
structure Dirent where
  name : String
  isDirectory : Bool
  deriving DecidableEq, Repr

/-- The file-system behaviour the shell depends on.  `chdir cwd dir` is
`process.chdir(dir)` run in working directory `cwd`: the new working directory, or
the message of the error thrown.  `readdir cwd dir` is the result handed to the
callback of `fs.readdir`. -/
structure Platform where
  chdir : String → String → Except String String
  readdir : String → String → Except String (List Dirent)

/-- The argument check `child_process.spawn` performs before anything else: the
command must be a non-empty string, otherwise `spawn` throws a `TypeError`
synchronously. -/
def spawnAccepts : Option String → Bool
  | none => false
  | some f => decide (f ≠ "")

/-- The error `spawn` throws for a command that is `undefined`. -/
def spawnTypeError : String :=
  "TypeError [ERR_INVALID_ARG_TYPE]: The \"file\" argument must be of type string"

/-! ## The functions of `shell.js` -/

/-- The prompt string built by `updatePrompt`. -/
def promptText (cwd : String) : String :=
  "cmShell " ++ cwd ++ "> "

/-- Function `updatePrompt`: sets the prompt from the working directory and shows
it. -/
def updatePrompt (cwd : String) : List Event :=
  [Event.setPrompt (promptText cwd), Event.prompt]

/-- Function `parseInput`: `input.split(" ").filter(Boolean)`. -/
def parseInput (input : String) : List String :=
  (split input ' ').filter (fun s => truthy (some s))

/-- Function `changeDirectory`. -/
def changeDirectory (P : Platform) (cwd : String) (dir : Option String) : Run Unit :=
  if !truthy dir then
    { events := Event.consoleLog "No directory specified" :: updatePrompt cwd,
      callback := none, cwd := cwd, completion := Completion.returned () }
  else
    match P.chdir cwd (dir.getD "") with
    | Except.ok cwd2 =>
      { events := Event.chdir (dir.getD "") :: updatePrompt cwd2,
        callback := none, cwd := cwd2, completion := Completion.returned () }
    | Except.error msg =>
      { events := Event.chdir (dir.getD "") :: Event.consoleError ("Error: " ++ msg)
          :: updatePrompt cwd,
        callback := none, cwd := cwd, completion := Completion.returned () }

/-- Function `listDirectoryContents`: starts the asynchronous `fs.readdir`; the
listing is printed by `readdirCallback` when the read completes. -/
def listDirectoryContents (cwd : String) (dir : String) : Run Unit :=
  { events := [Event.readdir dir], callback := some (Callback.readdirDone dir),
    cwd := cwd, completion := Completion.returned () }

/-- The callback `listDirectoryContents` hands to `fs.readdir`. -/
def readdirCallback (cwd : String) (result : Except String (List Dirent)) : List Event :=
  match result with
  | Except.error msg => Event.consoleError ("Error: " ++ msg) :: updatePrompt cwd
  | Except.ok files =>
    files.map (fun file =>
      Event.consoleLog (if file.isDirectory then "[DIR] " ++ file.name else file.name))
      ++ updatePrompt cwd

/-- The events a registered callback performs when it runs in working directory
`cwd`. -/
def runCallback (P : Platform) (cwd : String) : Callback → List Event
  | Callback.closeRefresh => updatePrompt cwd
  | Callback.closeFileRefresh path => Event.closeWriteStream path :: updatePrompt cwd
  | Callback.readdirDone dir => readdirCallback cwd (P.readdir cwd dir)

/-- Function `handleBuiltIn`.  `rl.close()` runs the `close` handler of the
interface at once, which prints the farewell and ends the process. -/
def handleBuiltIn (P : Platform) (cwd : String) (command : Option String)
    (args : List String) : Run Bool :=
  if command = some "exit" then
    { events := [Event.rlClose, Event.consoleLog "Exiting cmShell...", Event.processExit 0],
      callback := none, cwd := cwd, completion := Completion.exited 0 }
  else if command = some "echo" then
    { events := [Event.consoleLog (join args " ")],
      callback := none, cwd := cwd, completion := Completion.returned true }
  else if command = some "cd" then
    let r := changeDirectory P cwd (at? args 0)
    { events := r.events, callback := r.callback, cwd := r.cwd,
      completion := Completion.returned true }
  else if command = some "ls" then
    let r := listDirectoryContents cwd
      (if truthy (at? args 0) then (at? args 0).getD "." else ".")
    { events := r.events, callback := r.callback, cwd := r.cwd,
      completion := Completion.returned true }
  else
    { events := [], callback := none, cwd := cwd, completion := Completion.returned false }

/-- Function `executeCommand`. -/
def executeCommand (cwd : String) (command : Option String) (args : List String) : Run Unit :=
  let isBackground := decide (at? args ((args.length : Int) - 1) = some "&")
  let args2 := if isBackground then slice args 0 (-1) else args
  if spawnAccepts command then
    if !isBackground then
      { events := [Event.spawn command args2 optsInherit],
        callback := some Callback.closeRefresh, cwd := cwd,
        completion := Completion.returned () }
    else
      { events := Event.spawn command args2 optsInherit :: updatePrompt cwd,
        callback := none, cwd := cwd, completion := Completion.returned () }
  else
    { events := [Event.spawn command args2 optsInherit],
      callback := none, cwd := cwd, completion := Completion.threw spawnTypeError }

/-- The body of the `if (outputIndex > -1)` branch of `handleRedirection`. -/
def redirectOutput (cwd : String) (args : List String) (outputIndex : Int) : Run Bool :=
  let command := slice args 0 outputIndex
  let outputFile := at? args (outputIndex + 1)
  if !truthy outputFile then
    { events := Event.consoleError "Error: No output file specified" :: updatePrompt cwd,
      callback := none, cwd := cwd, completion := Completion.returned true }
  else if spawnAccepts (at? command 0) then
    { events := [Event.spawn (at? command 0) (sliceFrom command 1) optsShell,
                 Event.createWriteStream (outputFile.getD ""),
                 Event.pipeStdoutToFile (outputFile.getD ""),
                 Event.pipeStderrToShell],
      callback := some (Callback.closeFileRefresh (outputFile.getD "")),
      cwd := cwd, completion := Completion.returned true }
  else
    { events := [Event.spawn (at? command 0) (sliceFrom command 1) optsShell],
      callback := none, cwd := cwd, completion := Completion.threw spawnTypeError }

/-- The body of the `if (inputIndex > -1)` branch of `handleRedirection`. -/
def redirectInput (cwd : String) (args : List String) (inputIndex : Int) : Run Bool :=
  let command := slice args 0 inputIndex
  let inputFile := at? args (inputIndex + 1)
  if !truthy inputFile then
    { events := Event.consoleError "Error: No input file specified" :: updatePrompt cwd,
      callback := none, cwd := cwd, completion := Completion.returned true }
  else if spawnAccepts (at? command 0) then
    { events := [Event.createReadStream (inputFile.getD ""),
                 Event.spawn (at? command 0) (sliceFrom command 1) optsPipeStdin,
                 Event.pipeFileToStdin (inputFile.getD "")],
      callback := some Callback.closeRefresh,
      cwd := cwd, completion := Completion.returned true }
  else
    { events := [Event.createReadStream (inputFile.getD ""),
                 Event.spawn (at? command 0) (sliceFrom command 1) optsPipeStdin],
      callback := none, cwd := cwd, completion := Completion.threw spawnTypeError }

/-- Function `handleRedirection`. -/
def handleRedirection (cwd : String) (args : List String) : Run Bool :=
  let outputIndex := indexOf args ">"
  let inputIndex := indexOf args "<"
  if outputIndex > -1 then redirectOutput cwd args outputIndex
  else if inputIndex > -1 then redirectInput cwd args inputIndex
  else { events := [], callback := none, cwd := cwd, completion := Completion.returned false }

/-- The same run seen from a caller that ignores the returned value: a thrown error
or a process exit still propagates. -/
def Run.discard {α : Type} (r : Run α) : Run Unit :=
  { events := r.events, callback := r.callback, cwd := r.cwd,
    completion :=
      match r.completion with
      | Completion.returned _ => Completion.returned ()
      | Completion.threw e => Completion.threw e
      | Completion.exited c => Completion.exited c }

/-- The `line` handler `rl.on("line", (line) => ...)`. -/
def onLine (P : Platform) (cwd : String) (line : String) : Run Unit :=
  let input := trim line
  let args := parseInput input
  let r := handleRedirection cwd args
  match r.completion with
  | Completion.returned false =>
    let command := at? args 0
    let commandArgs := sliceFrom args 1
    let b := handleBuiltIn P cwd command commandArgs
    match b.completion with
    | Completion.returned false => executeCommand cwd command commandArgs
    | _ => b.discard
  | _ => r.discard

/-- A platform for examples: directory `/tmp` exists, nothing else does. -/
def demoPlatform : Platform :=
  { chdir := fun _ dir =>
      if dir = "/tmp" then Except.ok "/tmp"
      else Except.error ("ENOENT: no such file or directory, chdir " ++ dir),
    readdir := fun _ _ => Except.ok [] }

/-- The non-empty pieces of a character sequence cut at every space. -/
def nonEmptyPieces (cs : List Char) : List (List Char) :=
  (splitChars ' ' cs).filter (fun w => !w.isEmpty)

/-- The tokenizer as the specification words it: the line split on whitespace, with
the empty fragments removed. -/
def tokenizeSpec (line : String) : List String :=
  ((line.data.splitOnP isJsWhitespace).filter (fun w => !w.isEmpty)).map String.mk

/-- A run of `n` spaces. -/
def spaces (n : Nat) : String :=
  String.mk (List.replicate n ' ')

/-- The text a primitive call writes to the standard output of the shell
(`console.log` writes its argument and a newline). -/
def Event.stdoutText : Event → String
  | Event.consoleLog text => text ++ "\n"
  | _ => ""

/-- The words `spawn` hands to the system command interpreter when the option
`shell: true` is set: the command followed by its arguments, which Node joins with
spaces into the command line of the interpreter. -/
def interpreterWords (file : Option String) (args : List String) : List String :=
  file.toList ++ args

/-- Input redirection by the system command interpreter: the word that follows a
word `<` names a file which the interpreter opens for reading as the standard input
of the command. -/
def interpreterInputFiles : List String → List String
  | [] => []
  | w :: rest =>
    if w = "<" then
      match rest with
      | [] => []
      | f :: rest2 => f :: interpreterInputFiles rest2
    else interpreterInputFiles rest

/-- The clause "no file is opened for reading as the child's standard input", said
of a run: the program creates no read stream, and no command handed to the system
command interpreter carries an input redirection. -/
def opensNoInputFile (r : Run Bool) : Prop :=
  (∀ path, Event.createReadStream path ∉ r.events) ∧
  ∀ file args options, Event.spawn file args options ∈ r.events → options.shell = true →
    interpreterInputFiles (interpreterWords file args) = []

/-! ## Facts about the array primitives -/

theorem indexOfFrom_of_not_mem (x : String) (xs : List String) (k : Nat) (h : x ∉ xs) :
    indexOfFrom x xs k = -1 := by
  induction xs generalizing k with
  | nil => rfl
  | cons a rest ih =>
    have ha : a ≠ x := fun e => h (by simp [e])
    have hr : x ∉ rest := fun m => h (List.mem_cons_of_mem _ m)
    simp [indexOfFrom, ha, ih (k + 1) hr]

theorem indexOfFrom_first (x : String) (pre post : List String) (k : Nat) (h : x ∉ pre) :
    indexOfFrom x (pre ++ x :: post) k = ((k + pre.length : Nat) : Int) := by
  induction pre generalizing k with
  | nil => simp [indexOfFrom]
  | cons a rest ih =>
    have ha : a ≠ x := fun e => h (by simp [e])
    have hr : x ∉ rest := fun m => h (List.mem_cons_of_mem _ m)
    show indexOfFrom x (a :: (rest ++ x :: post)) k = _
    rw [indexOfFrom, if_neg ha, ih (k + 1) hr, List.length_cons]
    congr 1
    omega

theorem indexOf_of_not_mem (x : String) (xs : List String) (h : x ∉ xs) :
    indexOf xs x = -1 :=
  indexOfFrom_of_not_mem x xs 0 h

theorem indexOf_first (x : String) (pre post : List String) (h : x ∉ pre) :
    indexOf (pre ++ x :: post) x = (pre.length : Int) := by
  simp [indexOf, indexOfFrom_first x pre post 0 h]

/-- Every list containing `x` splits at the first occurrence of `x`. -/
theorem exists_first_occurrence (x : String) (xs : List String) (h : x ∈ xs) :
    ∃ pre post, xs = pre ++ x :: post ∧ x ∉ pre := by
  induction xs with
  | nil => simp at h
  | cons a rest ih =>
    by_cases ha : a = x
    · exact ⟨[], rest, by simp [ha], by simp⟩
    · have hr : x ∈ rest := by
        rcases List.mem_cons.mp h with e | m
        · exact absurd e.symm ha
        · exact m
      obtain ⟨pre, post, e, hp⟩ := ih hr
      refine ⟨a :: pre, post, by simp [e], ?_⟩
      intro m
      rcases List.mem_cons.mp m with e2 | m2
      · exact ha e2.symm
      · exact hp m2

theorem at?_natCast (xs : List String) (i : Nat) : at? xs (i : Int) = xs.get? i := by
  simp [at?]

theorem at?_zero (xs : List String) : at? xs 0 = xs.head? := by
  cases xs <;> simp [at?]

theorem at?_succ_length (pre post : List String) (x : String) :
    at? (pre ++ x :: post) ((pre.length : Int) + 1) = post.head? := by
  have h : ((pre.length : Int) + 1) = ((pre.length + 1 : Nat) : Int) := by simp
  have e : pre ++ x :: post = (pre ++ [x]) ++ post := by simp
  rw [h, at?_natCast, e, List.get?_eq_getElem?,
    List.getElem?_append_right (by simp)]
  cases post <;> simp

theorem at?_last (xs : List String) : at? xs ((xs.length : Int) - 1) = xs.getLast? := by
  rcases List.eq_nil_or_concat xs with rfl | ⟨pre, x, rfl⟩
  · simp [at?]
  · rw [List.concat_eq_append]
    have h : (((pre ++ [x]).length : Int) - 1) = ((pre.length : Nat) : Int) := by simp
    rw [h, at?_natCast]
    simp [List.get?_eq_getElem?]

theorem slice_zero_length (pre post : List String) :
    slice (pre ++ post) 0 (pre.length : Int) = pre := by
  have h : ¬ ((pre.length : Int) < 0) := by omega
  simp [slice, relIndex, h]

theorem slice_zero_neg_one (xs : List String) : slice xs 0 (-1) = xs.dropLast := by
  simp only [slice, relIndex]
  simp only [List.dropLast_eq_take]
  have h : (((xs.length : Int) + -1).toNat) = xs.length - 1 := by omega
  simp [h]

theorem sliceFrom_one (xs : List String) : sliceFrom xs 1 = xs.tail := by
  cases xs <;> simp [sliceFrom, relIndex]

/-! ## Facts about the tokenizer -/

theorem splitChars_ne_nil (sep : Char) (cs : List Char) : splitChars sep cs ≠ [] := by
  cases cs with
  | nil => simp [splitChars]
  | cons c cs =>
    simp only [splitChars]
    split
    · simp
    · split <;> simp

theorem splitChars_eq_splitOnP (sep : Char) (cs : List Char) :
    splitChars sep cs = cs.splitOnP (fun c => c == sep) := by
  induction cs with
  | nil => simp [splitChars]
  | cons c cs ih =>
    rw [List.splitOnP_cons, splitChars]
    by_cases h : c = sep
    · simp [h, ih]
    · simp only [h, if_false, beq_iff_eq]
      rw [← ih]
      cases hs : splitChars sep cs with
      | nil => exact absurd hs (splitChars_ne_nil sep cs)
      | cons w ws => simp

theorem sep_not_mem_of_mem_splitChars (sep : Char) (cs w : List Char)
    (hw : w ∈ splitChars sep cs) : sep ∉ w := by
  induction cs generalizing w with
  | nil =>
    simp [splitChars] at hw
    simp [hw]
  | cons c cs ih =>
    rw [splitChars] at hw
    by_cases h : c = sep
    · simp only [h, if_true, List.mem_cons] at hw
      rcases hw with rfl | hw
      · simp
      · exact ih w hw
    · simp only [h, if_false] at hw
      cases hs : splitChars sep cs with
      | nil => exact absurd hs (splitChars_ne_nil sep cs)
      | cons v vs =>
        rw [hs] at hw ih
        simp only [List.mem_cons] at hw
        rcases hw with rfl | hw
        · intro m
          rcases List.mem_cons.mp m with e | m2
          · exact h e.symm
          · exact ih v (by simp) m2
        · exact ih w (by simp [hw])

theorem splitChars_append_sep (sep : Char) (xs : List Char) :
    splitChars sep (xs ++ [sep]) = splitChars sep xs ++ [[]] := by
  induction xs with
  | nil => simp [splitChars]
  | cons c xs ih =>
    show splitChars sep (c :: (xs ++ [sep])) = _
    rw [splitChars, splitChars, ih]
    by_cases h : c = sep
    · simp [h]
    · simp only [h, if_false]
      cases hs : splitChars sep xs with
      | nil => exact absurd hs (splitChars_ne_nil sep xs)
      | cons w ws => simp

theorem nonEmptyPieces_append_spaces (xs : List Char) (k : Nat) :
    nonEmptyPieces (xs ++ List.replicate k ' ') = nonEmptyPieces xs := by
  induction k with
  | zero => simp
  | succ k ih =>
    rw [List.replicate_succ', ← List.append_assoc]
    unfold nonEmptyPieces at ih ⊢
    rw [splitChars_append_sep, List.filter_append, ih]
    simp

theorem nonEmptyPieces_cons_space (cs : List Char) :
    nonEmptyPieces (' ' :: cs) = nonEmptyPieces cs := by
  simp [nonEmptyPieces, splitChars]

theorem isJsWhitespace_space : isJsWhitespace ' ' = true := by decide

theorem nonEmptyPieces_dropWhile (cs : List Char)
    (h : ∀ c ∈ cs, isJsWhitespace c = true → c = ' ') :
    nonEmptyPieces (cs.dropWhile isJsWhitespace) = nonEmptyPieces cs := by
  induction cs with
  | nil => rfl
  | cons c cs ih =>
    have hcs : ∀ d ∈ cs, isJsWhitespace d = true → d = ' ' :=
      fun d hd => h d (List.mem_cons_of_mem _ hd)
    by_cases hc : isJsWhitespace c = true
    · have e : c = ' ' := h c (by simp) hc
      rw [List.dropWhile_cons_of_pos hc, ih hcs, e, nonEmptyPieces_cons_space]
    · rw [List.dropWhile_cons_of_neg hc]

theorem trimEndChars_append_spaces (cs : List Char)
    (h : ∀ c ∈ cs, isJsWhitespace c = true → c = ' ') :
    ∃ k, cs = trimEndChars cs ++ List.replicate k ' ' := by
  induction cs with
  | nil => exact ⟨0, rfl⟩
  | cons c cs ih =>
    have hcs : ∀ d ∈ cs, isJsWhitespace d = true → d = ' ' :=
      fun d hd => h d (List.mem_cons_of_mem _ hd)
    obtain ⟨k, hk⟩ := ih hcs
    rw [trimEndChars]
    cases ht : trimEndChars cs with
    | nil =>
      rw [ht] at hk
      by_cases hc : isJsWhitespace c = true
      · have e : c = ' ' := h c (by simp) hc
        refine ⟨k + 1, ?_⟩
        simp only [hc, if_true, List.nil_append]
        subst e
        rw [List.replicate_succ]
        simpa using hk
      · refine ⟨k, ?_⟩
        simp only [hc]
        simpa using hk
    | cons r rs =>
      rw [ht] at hk
      refine ⟨k, ?_⟩
      simp only [List.cons_append]
      congr 1

theorem nonEmptyPieces_trimChars (cs : List Char)
    (h : ∀ c ∈ cs, isJsWhitespace c = true → c = ' ') :
    nonEmptyPieces (trimChars cs) = nonEmptyPieces cs := by
  have hd : ∀ c ∈ cs.dropWhile isJsWhitespace, isJsWhitespace c = true → c = ' ' :=
    fun c hc => h c ((List.dropWhile_suffix isJsWhitespace).subset hc)
  obtain ⟨k, hk⟩ := trimEndChars_append_spaces _ hd
  rw [← nonEmptyPieces_dropWhile cs h]
  conv_rhs => rw [hk]
  rw [nonEmptyPieces_append_spaces]
  rfl

theorem splitOnP_whitespace_eq (cs : List Char)
    (h : ∀ c ∈ cs, isJsWhitespace c = true → c = ' ') :
    cs.splitOnP isJsWhitespace = cs.splitOnP (fun c => c == ' ') := by
  induction cs with
  | nil => simp
  | cons c cs ih =>
    have hcs : ∀ d ∈ cs, isJsWhitespace d = true → d = ' ' :=
      fun d hd => h d (List.mem_cons_of_mem _ hd)
    rw [List.splitOnP_cons, List.splitOnP_cons, ih hcs]
    by_cases hc : isJsWhitespace c = true
    · have e : c = ' ' := h c (by simp) hc
      simp [e, isJsWhitespace_space]
    · have e : c ≠ ' ' := fun e => hc (by rw [e]; exact isJsWhitespace_space)
      simp [hc, e]

theorem string_mk_ne_empty (w : List Char) : String.mk w ≠ "" ↔ w ≠ [] := by
  constructor
  · intro h e
    exact h (by rw [e])
  · intro h e
    exact h (by simpa using congrArg String.data e)

theorem parseInput_eq_pieces (input : String) :
    parseInput input = (nonEmptyPieces input.data).map String.mk := by
  unfold parseInput split nonEmptyPieces
  rw [List.filter_map]
  congr 1
  apply List.filter_congr
  intro w _
  cases w <;> simp [truthy, string_mk_ne_empty]

theorem flatten_splitChars (sep : Char) (cs : List Char) :
    (splitChars sep cs).flatten = cs.filter (fun c => c != sep) := by
  induction cs with
  | nil => rfl
  | cons c cs ih =>
    rw [splitChars]
    by_cases h : c = sep
    · simp [h, ih]
    · simp only [h, if_false]
      cases hs : splitChars sep cs with
      | nil => exact absurd hs (splitChars_ne_nil sep cs)
      | cons w ws =>
        rw [hs] at ih
        simp [h, ← ih]

/-- The characters of the tokens, in order, are the characters of the input other
than the space. -/
theorem flatten_parseInput (input : String) :
    ((parseInput input).map String.data).flatten =
      input.data.filter (fun c => c != ' ') := by
  rw [parseInput_eq_pieces, List.map_map]
  have e : (String.data ∘ String.mk) = (id : List Char → List Char) := rfl
  rw [e, List.map_id, nonEmptyPieces, List.flatten_filter_not_isEmpty, flatten_splitChars]

/-- The tokens of a line are non-empty and contain no space. -/
theorem parseInput_token (input t : String) (ht : t ∈ parseInput input) :
    t ≠ "" ∧ ' ' ∉ t.data := by
  rw [parseInput_eq_pieces] at ht
  obtain ⟨w, hw, rfl⟩ := List.mem_map.mp ht
  unfold nonEmptyPieces at hw
  obtain ⟨hw1, hw2⟩ := List.mem_filter.mp hw
  refine ⟨?_, sep_not_mem_of_mem_splitChars ' ' _ w hw1⟩
  rw [string_mk_ne_empty]
  intro e
  simp [e] at hw2

/-! ## Facts about redirection detection -/

theorem gt_ne_lt : (">" : String) ≠ "<" := by decide

theorem handleRedirection_of_no_operator (cwd : String) (args : List String)
    (hgt : ">" ∉ args) (hlt : "<" ∉ args) :
    handleRedirection cwd args =
      { events := [], callback := none, cwd := cwd, completion := Completion.returned false } := by
  simp [handleRedirection, indexOf_of_not_mem _ _ hgt, indexOf_of_not_mem _ _ hlt]

theorem handleRedirection_of_output (cwd : String) (pre post : List String)
    (hgt : ">" ∉ pre) :
    handleRedirection cwd (pre ++ ">" :: post) =
      redirectOutput cwd (pre ++ ">" :: post) (pre.length : Int) := by
  have h : ((-1 : Int) < (pre.length : Int)) := by omega
  simp [handleRedirection, indexOf_first _ _ _ hgt, h]

theorem handleRedirection_of_input (cwd : String) (pre post : List String)
    (hgt : ">" ∉ pre ++ "<" :: post) (hlt : "<" ∉ pre) :
    handleRedirection cwd (pre ++ "<" :: post) =
      redirectInput cwd (pre ++ "<" :: post) (pre.length : Int) := by
  have h : ((-1 : Int) < (pre.length : Int)) := by omega
  simp only [handleRedirection, indexOf_of_not_mem _ _ hgt, indexOf_first _ _ _ hlt]
  simp [h]

theorem redirectOutput_missing_file (cwd : String) (pre : List String) :
    redirectOutput cwd (pre ++ [">"]) (pre.length : Int) =
      { events := [Event.consoleError "Error: No output file specified",
                   Event.setPrompt (promptText cwd), Event.prompt],
        callback := none, cwd := cwd, completion := Completion.returned true } := by
  simp [redirectOutput, at?_succ_length, truthy, updatePrompt]

theorem redirectInput_missing_file (cwd : String) (pre : List String) :
    redirectInput cwd (pre ++ ["<"]) (pre.length : Int) =
      { events := [Event.consoleError "Error: No input file specified",
                   Event.setPrompt (promptText cwd), Event.prompt],
        callback := none, cwd := cwd, completion := Completion.returned true } := by
  simp [redirectInput, at?_succ_length, truthy, updatePrompt]

theorem redirectOutput_spawns (cwd c file : String) (rest post : List String)
    (hc : c ≠ "") (hf : file ≠ "") :
    redirectOutput cwd ((c :: rest) ++ ">" :: file :: post) (((c :: rest).length : Nat) : Int) =
      { events := [Event.spawn (some c) rest optsShell, Event.createWriteStream file,
                   Event.pipeStdoutToFile file, Event.pipeStderrToShell],
        callback := some (Callback.closeFileRefresh file), cwd := cwd,
        completion := Completion.returned true } := by
  unfold redirectOutput
  rw [at?_succ_length, slice_zero_length]
  simp [truthy, hf, at?_zero, spawnAccepts, hc, sliceFrom_one]

theorem redirectInput_spawns (cwd c file : String) (rest post : List String)
    (hc : c ≠ "") (hf : file ≠ "") :
    redirectInput cwd ((c :: rest) ++ "<" :: file :: post) (((c :: rest).length : Nat) : Int) =
      { events := [Event.createReadStream file, Event.spawn (some c) rest optsPipeStdin,
                   Event.pipeFileToStdin file],
        callback := some Callback.closeRefresh, cwd := cwd,
        completion := Completion.returned true } := by
  unfold redirectInput
  rw [at?_succ_length, slice_zero_length]
  simp [truthy, hf, at?_zero, spawnAccepts, hc, sliceFrom_one]

/-- What `handleRedirection` does on a token sequence with at least one command
token before the operator: no operator, not handled and no effect; a first `>`
followed by a token, one process for the tokens before it with its output piped to
the file; otherwise a first `<` followed by a token, one process for the tokens
before it with the file piped to its input. -/
theorem handleRedirection_classifies (cwd : String) (args : List String)
    (hne : ∀ t ∈ args, t ≠ "") :
    ((">" ∉ args ∧ "<" ∉ args) →
      handleRedirection cwd args =
        { events := [], callback := none, cwd := cwd,
          completion := Completion.returned false }) ∧
    (∀ c rest file post, args = (c :: rest) ++ ">" :: file :: post → ">" ∉ c :: rest →
      handleRedirection cwd args =
        { events := [Event.spawn (some c) rest optsShell, Event.createWriteStream file,
                     Event.pipeStdoutToFile file, Event.pipeStderrToShell],
          callback := some (Callback.closeFileRefresh file), cwd := cwd,
          completion := Completion.returned true }) ∧
    (∀ c rest file post, args = (c :: rest) ++ "<" :: file :: post → ">" ∉ args →
      "<" ∉ c :: rest →
      handleRedirection cwd args =
        { events := [Event.createReadStream file, Event.spawn (some c) rest optsPipeStdin,
                     Event.pipeFileToStdin file],
          callback := some Callback.closeRefresh, cwd := cwd,
          completion := Completion.returned true }) := by
  refine ⟨fun h => handleRedirection_of_no_operator cwd args h.1 h.2, ?_, ?_⟩
  · intro c rest file post e hgt
    subst e
    rw [handleRedirection_of_output cwd _ _ hgt]
    exact redirectOutput_spawns cwd c file rest post (hne c (by simp)) (hne file (by simp))
  · intro c rest file post e hgt hlt
    subst e
    rw [handleRedirection_of_input cwd _ _ hgt hlt]
    exact redirectInput_spawns cwd c file rest post (hne c (by simp)) (hne file (by simp))

/-- The three sample token sequences: `echo hi > out.txt` is an output redirection
of `echo hi`, `cat < in.txt` an input redirection of `cat`, and `ls -la` is not a
redirection. -/
theorem handleRedirection_samples :
    handleRedirection "/home" ["echo", "hi", ">", "out.txt"] =
      { events := [Event.spawn (some "echo") ["hi"] optsShell,
                   Event.createWriteStream "out.txt", Event.pipeStdoutToFile "out.txt",
                   Event.pipeStderrToShell],
        callback := some (Callback.closeFileRefresh "out.txt"), cwd := "/home",
        completion := Completion.returned true } ∧
    handleRedirection "/home" ["cat", "<", "in.txt"] =
      { events := [Event.createReadStream "in.txt",
                   Event.spawn (some "cat") [] optsPipeStdin,
                   Event.pipeFileToStdin "in.txt"],
        callback := some Callback.closeRefresh, cwd := "/home",
        completion := Completion.returned true } ∧
    handleRedirection "/home" ["ls", "-la"] =
      { events := [], callback := none, cwd := "/home",
        completion := Completion.returned false } := by
  decide

/-- A word `<` that no other `<` precedes hands the word after it to the
interpreter as an input file. -/
theorem mem_interpreterInputFiles (pre post : List String) (f : String) (h : "<" ∉ pre) :
    f ∈ interpreterInputFiles (pre ++ "<" :: f :: post) := by
  induction pre with
  | nil => simp [interpreterInputFiles]
  | cons a pre ih =>
    have ha : a ≠ "<" := fun e => h (by simp [e])
    have hp : "<" ∉ pre := fun m => h (List.mem_cons_of_mem _ m)
    show f ∈ interpreterInputFiles (a :: (pre ++ "<" :: f :: post))
    rw [interpreterInputFiles.eq_def]
    simp only [if_neg ha]
    exact ih hp

/-! ## The line handler -/

theorem onLine_of_handled (P : Platform) (cwd line : String) (args : List String)
    (ha : parseInput (trim line) = args) (evs : List Event) (l : Option Callback)
    (hr : handleRedirection cwd args =
      { events := evs, callback := l, cwd := cwd, completion := Completion.returned true }) :
    onLine P cwd line =
      { events := evs, callback := l, cwd := cwd, completion := Completion.returned () } := by
  subst ha
  simp only [onLine, hr, Run.discard]

/-- Every call made by the output branch of `handleRedirection`. -/
theorem mem_redirectOutput_events (cwd : String) (args : List String) (i : Int) (e : Event)
    (he : e ∈ (redirectOutput cwd args i).events) :
    e = Event.consoleError "Error: No output file specified" ∨
    e = Event.setPrompt (promptText cwd) ∨ e = Event.prompt ∨
    e = Event.spawn (at? (slice args 0 i) 0) (sliceFrom (slice args 0 i) 1) optsShell ∨
    e = Event.createWriteStream ((at? args (i + 1)).getD "") ∨
    e = Event.pipeStdoutToFile ((at? args (i + 1)).getD "") ∨
    e = Event.pipeStderrToShell := by
  unfold redirectOutput at he
  by_cases h1 : truthy (at? args (i + 1)) = true
  · by_cases h2 : spawnAccepts (at? (slice args 0 i) 0) = true
    · simp only [h1, h2, Bool.not_true, if_true, Bool.false_eq_true, if_false] at he
      simp only [List.mem_cons, List.mem_singleton, List.not_mem_nil, or_false] at he
      tauto
    · simp only [h1, h2, Bool.not_true, Bool.false_eq_true, if_false] at he
      simp only [List.mem_singleton] at he
      tauto
  · simp only [h1, Bool.not_false, if_true, updatePrompt] at he
    simp only [List.mem_cons, List.mem_singleton, List.not_mem_nil, or_false] at he
    tauto

theorem onLine_of_no_operator (P : Platform) (cwd line : String) (args : List String)
    (ha : parseInput (trim line) = args) (hgt : ">" ∉ args) (hlt : "<" ∉ args) :
    onLine P cwd line =
      match (handleBuiltIn P cwd (at? args 0) (sliceFrom args 1)).completion with
      | Completion.returned false => executeCommand cwd (at? args 0) (sliceFrom args 1)
      | _ => (handleBuiltIn P cwd (at? args 0) (sliceFrom args 1)).discard := by
  subst ha
  simp only [onLine, handleRedirection_of_no_operator cwd _ hgt hlt]

theorem trimChars_of_all_whitespace (cs : List Char)
    (h : ∀ c ∈ cs, isJsWhitespace c = true) : trimChars cs = [] := by
  have e : cs.dropWhile isJsWhitespace = [] := by
    rw [List.dropWhile_eq_nil_iff]
    exact h
  simp [trimChars, e, trimEndChars]

theorem splitChars_of_no_sep (sep : Char) (w : List Char) (h : sep ∉ w) :
    splitChars sep w = [w] := by
  induction w with
  | nil => rfl
  | cons c w ih =>
    have hc : c ≠ sep := fun e => h (by simp [e])
    have hw : sep ∉ w := fun m => h (List.mem_cons_of_mem _ m)
    simp [splitChars, hc, ih hw]

theorem splitChars_word_sep (sep : Char) (w cs : List Char) (h : sep ∉ w) :
    splitChars sep (w ++ sep :: cs) = w :: splitChars sep cs := by
  induction w with
  | nil => simp [splitChars]
  | cons c w ih =>
    have hc : c ≠ sep := fun e => h (by simp [e])
    have hw : sep ∉ w := fun m => h (List.mem_cons_of_mem _ m)
    show splitChars sep (c :: (w ++ sep :: cs)) = _
    rw [splitChars, if_neg hc, ih hw]

theorem nonEmptyPieces_spaces_append (n : Nat) (cs : List Char) :
    nonEmptyPieces (List.replicate n ' ' ++ cs) = nonEmptyPieces cs := by
  induction n with
  | zero => simp
  | succ n ih =>
    rw [List.replicate_succ, List.cons_append, nonEmptyPieces_cons_space, ih]

theorem nonEmptyPieces_word_space (w cs : List Char) (h : ' ' ∉ w) (hne : w ≠ []) :
    nonEmptyPieces (w ++ ' ' :: cs) = w :: nonEmptyPieces cs := by
  unfold nonEmptyPieces
  rw [splitChars_word_sep ' ' w cs h]
  cases w with
  | nil => exact absurd rfl hne
  | cons c w => simp

theorem trimEndChars_of_all_whitespace (cs : List Char)
    (h : ∀ c ∈ cs, isJsWhitespace c = true) : trimEndChars cs = [] := by
  induction cs with
  | nil => rfl
  | cons c cs ih =>
    have hcs : ∀ d ∈ cs, isJsWhitespace d = true := fun d hd => h d (List.mem_cons_of_mem _ hd)
    rw [trimEndChars, ih hcs]
    simp [h c (by simp)]

theorem trimEndChars_append_whitespace (xs trail : List Char)
    (h : ∀ c ∈ trail, isJsWhitespace c = true) :
    trimEndChars (xs ++ trail) = trimEndChars xs := by
  induction xs with
  | nil => simpa [trimEndChars] using trimEndChars_of_all_whitespace trail h
  | cons c xs ih =>
    show trimEndChars (c :: (xs ++ trail)) = _
    rw [trimEndChars, trimEndChars, ih]

theorem trimEndChars_of_last (ys : List Char) (z : Char) (hz : isJsWhitespace z = false) :
    trimEndChars (ys ++ [z]) = ys ++ [z] := by
  induction ys with
  | nil => simp [trimEndChars, hz]
  | cons c ys ih =>
    show trimEndChars (c :: (ys ++ [z])) = _
    rw [trimEndChars, ih]
    cases ys <;> rfl

theorem dropWhile_whitespace_append (lead xs : List Char)
    (h : ∀ c ∈ lead, isJsWhitespace c = true) :
    (lead ++ xs).dropWhile isJsWhitespace = xs.dropWhile isJsWhitespace := by
  induction lead with
  | nil => rfl
  | cons c lead ih =>
    have hl : ∀ d ∈ lead, isJsWhitespace d = true :=
      fun d hd => h d (List.mem_cons_of_mem _ hd)
    show (c :: (lead ++ xs)).dropWhile isJsWhitespace = _
    rw [List.dropWhile_cons_of_pos (h c (by simp)), ih hl]

/-- Trimming removes whitespace of any kind around a text that begins and ends with
a character that is not whitespace. -/
theorem trimChars_surrounded (lead trail ys : List Char) (x z : Char)
    (hl : ∀ c ∈ lead, isJsWhitespace c = true) (ht : ∀ c ∈ trail, isJsWhitespace c = true)
    (hx : isJsWhitespace x = false) (hz : isJsWhitespace z = false) :
    trimChars (lead ++ ((x :: ys ++ [z]) ++ trail)) = x :: ys ++ [z] := by
  unfold trimChars
  rw [dropWhile_whitespace_append lead _ hl]
  have hd : ((x :: ys ++ [z]) ++ trail).dropWhile isJsWhitespace = (x :: ys ++ [z]) ++ trail := by
    show (x :: ((ys ++ [z]) ++ trail)).dropWhile isJsWhitespace = _
    rw [List.dropWhile_cons_of_neg (by simp [hx])]
    rfl
  rw [hd, trimEndChars_append_whitespace _ _ ht]
  exact trimEndChars_of_last (x :: ys) z hz

/-- The tokens of `echo a b c` written with whitespace of any kind around the line
and any number of spaces between the words. -/
theorem parseInput_echo_a_b_c (lead trail : List Char) (b c d : Nat)
    (hl : ∀ x ∈ lead, isJsWhitespace x = true) (ht : ∀ x ∈ trail, isJsWhitespace x = true) :
    parseInput (trim (String.mk lead ++ "echo" ++ spaces (b + 1) ++ "a" ++ spaces (c + 1)
      ++ "b" ++ spaces (d + 1) ++ "c" ++ String.mk trail)) = ["echo", "a", "b", "c"] := by
  have hdata : (String.mk lead ++ "echo" ++ spaces (b + 1) ++ "a" ++ spaces (c + 1)
      ++ "b" ++ spaces (d + 1) ++ "c" ++ String.mk trail).data =
      lead ++ (('e' :: (['c', 'h', 'o'] ++ ' ' :: (List.replicate b ' ' ++
        (['a'] ++ ' ' :: (List.replicate c ' ' ++ (['b'] ++ ' ' :: List.replicate d ' ')))))
          ++ ['c']) ++ trail) := by
    simp [spaces, String.data_append, List.replicate_succ]
  rw [parseInput_eq_pieces]
  show (nonEmptyPieces (trimChars _)).map String.mk = _
  rw [hdata, trimChars_surrounded lead trail _ 'e' 'c' hl ht (by decide) (by decide)]
  have hcore : ('e' :: (['c', 'h', 'o'] ++ ' ' :: (List.replicate b ' ' ++
        (['a'] ++ ' ' :: (List.replicate c ' ' ++ (['b'] ++ ' ' :: List.replicate d ' ')))))
          ++ ['c']) =
      ['e', 'c', 'h', 'o'] ++ ' ' :: (List.replicate b ' ' ++
        (['a'] ++ ' ' :: (List.replicate c ' ' ++ (['b'] ++ ' ' :: (List.replicate d ' ' ++
          ['c']))))) := by
    simp
  rw [hcore,
    nonEmptyPieces_word_space _ _ (by decide) (by decide), nonEmptyPieces_spaces_append,
    nonEmptyPieces_word_space _ _ (by decide) (by decide), nonEmptyPieces_spaces_append,
    nonEmptyPieces_word_space _ _ (by decide) (by decide), nonEmptyPieces_spaces_append]
  rfl

/-! ## The claims -/

/-- C1 (evaluation at the failing input): on the tokens of the line `> out.txt` the
first `>` is at index 0 and a file name follows it, yet `handleRedirection` does not
return: it calls `spawn` with an undefined command, which throws. -/
theorem handleRedirection_operator_first_throws (cwd : String) :
    handleRedirection cwd [">", "out.txt"] =
      { events := [Event.spawn none [] optsShell], callback := none, cwd := cwd,
        completion := Completion.threw spawnTypeError } := by
  rfl

/-- C2: with a trailing `&`, `executeCommand` spawns the command with the arguments
minus that one `&`, refreshes the prompt right after the spawn and registers no
`close` callback; without it, the arguments are passed unchanged, no prompt is shown
at spawn time, and the registered `close` callback refreshes the prompt. -/
theorem executeCommand_background_marker (cwd command : String) (args : List String)
    (hc : command ≠ "") :
    (args.getLast? = some "&" →
      executeCommand cwd (some command) args =
        { events := [Event.spawn (some command) args.dropLast optsInherit,
                     Event.setPrompt (promptText cwd), Event.prompt],
          callback := none, cwd := cwd, completion := Completion.returned () }) ∧
    (args.getLast? ≠ some "&" →
      executeCommand cwd (some command) args =
        { events := [Event.spawn (some command) args optsInherit],
          callback := some Callback.closeRefresh, cwd := cwd,
          completion := Completion.returned () }) ∧
    (∀ P d, runCallback P d Callback.closeRefresh =
      [Event.setPrompt (promptText d), Event.prompt]) := by
  refine ⟨?_, ?_, fun P d => rfl⟩
  · intro h
    simp [executeCommand, at?_last, h, spawnAccepts, hc, slice_zero_neg_one, updatePrompt]
  · intro h
    simp [executeCommand, at?_last, h, spawnAccepts, hc]

/-- Witness of C2 on `sleep 5 &` and `sleep 5`. -/
theorem executeCommand_background_marker_witness :
    ("sleep" : String) ≠ "" ∧
    executeCommand "/home" (some "sleep") ["5", "&"] =
      { events := [Event.spawn (some "sleep") ["5"] optsInherit,
                   Event.setPrompt "cmShell /home> ", Event.prompt],
        callback := none, cwd := "/home", completion := Completion.returned () } ∧
    executeCommand "/home" (some "sleep") ["5"] =
      { events := [Event.spawn (some "sleep") ["5"] optsInherit],
        callback := some Callback.closeRefresh, cwd := "/home",
        completion := Completion.returned () } :=
  ⟨by decide,
   (executeCommand_background_marker "/home" "sleep" ["5", "&"] (by decide)).1 (by decide),
   (executeCommand_background_marker "/home" "sleep" ["5"] (by decide)).2.1 (by decide)⟩

/-- C3 (counterexample): on the line `ls<TAB>-la` the shell derives the single token
`ls<TAB>-la`, which contains a whitespace character, whereas splitting on
whitespace gives `ls` and `-la`. -/
theorem tokens_tab_counterexample :
    parseInput (trim "ls\t-la") = ["ls\t-la"] ∧
    tokenizeSpec "ls\t-la" = ["ls", "-la"] ∧
    parseInput (trim "ls\t-la") ≠ tokenizeSpec "ls\t-la" ∧
    ¬ (∀ t ∈ parseInput (trim "ls\t-la"), ∀ c ∈ t.data, isJsWhitespace c = false) := by
  decide

/-- C3 (amended): the tokens of a line are the trimmed line split at the space
character with the empty fragments removed, in order; no token is empty and no
token contains a space; the characters of the tokens, in order, are the characters
of the trimmed line other than the space (a tab inside the line stays inside a
token); and when the only whitespace characters of the line are spaces, the tokens
are the line split on whitespace with the empty fragments removed. -/
theorem tokens_split_on_spaces (line : String) :
    parseInput (trim line) =
      (((trim line).data.splitOnP (fun c => c == ' ')).filter (fun w => !w.isEmpty)).map
        String.mk ∧
    (∀ t ∈ parseInput (trim line), t ≠ "" ∧ ' ' ∉ t.data) ∧
    ((parseInput (trim line)).map String.data).flatten =
      (trim line).data.filter (fun c => c != ' ') ∧
    ((∀ c ∈ line.data, isJsWhitespace c = true → c = ' ') →
      parseInput (trim line) = tokenizeSpec line) := by
  refine ⟨?_, fun t ht => parseInput_token _ t ht, flatten_parseInput _, ?_⟩
  · rw [parseInput_eq_pieces, nonEmptyPieces, splitChars_eq_splitOnP]
  · intro h
    rw [parseInput_eq_pieces]
    show (nonEmptyPieces (trimChars line.data)).map String.mk = _
    rw [nonEmptyPieces_trimChars _ h, nonEmptyPieces, splitChars_eq_splitOnP, tokenizeSpec,
      splitOnP_whitespace_eq _ h]

/-- Witness of C3 (amended) on the line `  ls   -la `. -/
theorem tokens_split_on_spaces_witness :
    (∀ c ∈ ("  ls   -la " : String).data, isJsWhitespace c = true → c = ' ') ∧
    parseInput (trim "  ls   -la ") = tokenizeSpec "  ls   -la " ∧
    tokenizeSpec "  ls   -la " = ["ls", "-la"] :=
  ⟨by decide, (tokens_split_on_spaces "  ls   -la ").2.2.2 (by decide), by decide⟩

/-- C4: when the operator selected for handling (the first `>`, or the first `<` of
a sequence without `>`) is the last token, `handleRedirection` reports the missing
file, refreshes the prompt once, makes no other call, and returns true; the line
handler then runs neither the built-in dispatcher nor the external executor. -/
theorem handleRedirection_missing_file (P : Platform) (cwd : String) (pre : List String)
    (hgt : ">" ∉ pre) :
    handleRedirection cwd (pre ++ [">"]) =
      { events := [Event.consoleError "Error: No output file specified",
                   Event.setPrompt (promptText cwd), Event.prompt],
        callback := none, cwd := cwd, completion := Completion.returned true } ∧
    ("<" ∉ pre →
      handleRedirection cwd (pre ++ ["<"]) =
        { events := [Event.consoleError "Error: No input file specified",
                     Event.setPrompt (promptText cwd), Event.prompt],
          callback := none, cwd := cwd, completion := Completion.returned true }) ∧
    (∀ line, parseInput (trim line) = pre ++ [">"] →
      onLine P cwd line =
        { events := [Event.consoleError "Error: No output file specified",
                     Event.setPrompt (promptText cwd), Event.prompt],
          callback := none, cwd := cwd, completion := Completion.returned () }) ∧
    (∀ line, "<" ∉ pre → parseInput (trim line) = pre ++ ["<"] →
      onLine P cwd line =
        { events := [Event.consoleError "Error: No input file specified",
                     Event.setPrompt (promptText cwd), Event.prompt],
          callback := none, cwd := cwd, completion := Completion.returned () }) := by
  have hout := (handleRedirection_of_output cwd pre [] hgt).trans
    (redirectOutput_missing_file cwd pre)
  have hin : "<" ∉ pre → handleRedirection cwd (pre ++ ["<"]) = _ := fun hlt =>
    (handleRedirection_of_input cwd pre []
      (by simp [hgt, gt_ne_lt]) hlt).trans (redirectInput_missing_file cwd pre)
  refine ⟨hout, hin, ?_, ?_⟩
  · intro line hl
    exact onLine_of_handled P cwd line _ hl _ _ hout
  · intro line hlt hl
    exact onLine_of_handled P cwd line _ hl _ _ (hin hlt)

/-- Witness of C4 on the line `echo hi >`. -/
theorem handleRedirection_missing_file_witness :
    ">" ∉ ["echo", "hi"] ∧
    parseInput (trim "echo hi >") = ["echo", "hi"] ++ [">"] ∧
    onLine demoPlatform "/home" "echo hi >" =
      { events := [Event.consoleError "Error: No output file specified",
                   Event.setPrompt (promptText "/home"), Event.prompt],
        callback := none, cwd := "/home", completion := Completion.returned () } :=
  ⟨by decide, by decide,
   (handleRedirection_missing_file demoPlatform "/home" ["echo", "hi"] (by decide)).2.2.1
     "echo hi >" (by decide)⟩

/-- C5 (counterexample): on the tokens of `sort < in.txt > out.txt` the output
branch runs and hands `sort < in.txt` to the system command interpreter, which opens
`in.txt` for reading as the standard input of `sort`. -/
theorem handleRedirection_input_file_counterexample :
    (">" ∈ ["sort", "<", "in.txt", ">", "out.txt"] ∧
      "<" ∈ ["sort", "<", "in.txt", ">", "out.txt"]) ∧
    handleRedirection "/home" ["sort", "<", "in.txt", ">", "out.txt"] =
      { events := [Event.spawn (some "sort") ["<", "in.txt"] optsShell,
                   Event.createWriteStream "out.txt", Event.pipeStdoutToFile "out.txt",
                   Event.pipeStderrToShell],
        callback := some (Callback.closeFileRefresh "out.txt"), cwd := "/home",
        completion := Completion.returned true } ∧
    interpreterInputFiles (interpreterWords (some "sort") ["<", "in.txt"]) = ["in.txt"] ∧
    ¬ opensNoInputFile (handleRedirection "/home" ["sort", "<", "in.txt", ">", "out.txt"]) := by
  refine ⟨by decide, by decide, by decide, ?_⟩
  intro h
  have h2 := h.2 (some "sort") ["<", "in.txt"] optsShell (by decide) rfl
  exact absurd h2 (by decide)

/-- C5 (amended): when a token sequence holds both `>` and `<`, `handleRedirection`
runs the output branch at the first `>`: the command tokens are the tokens before
it, every `spawn` call is for those tokens with the options of the output branch,
and the program makes no call of the input branch (read stream, pipe into standard
input, input error message).  A `<` token before the first `>` goes with the
command tokens to the system command interpreter, which opens the token after it
for reading as the standard input of the command. -/
theorem handleRedirection_output_wins (cwd : String) (args : List String)
    (hgt : ">" ∈ args) (hlt : "<" ∈ args) :
    (∃ i : Nat,
      indexOf args ">" = (i : Int) ∧ args.get? i = some ">" ∧ ">" ∉ args.take i ∧
      slice args 0 (indexOf args ">") = args.take i ∧
      handleRedirection cwd args = redirectOutput cwd args (i : Int) ∧
      (∀ file spawnArgs options,
        Event.spawn file spawnArgs options ∈ (handleRedirection cwd args).events →
        file = (args.take i).head? ∧ spawnArgs = (args.take i).tail ∧ options = optsShell) ∧
      (∀ path, Event.createReadStream path ∉ (handleRedirection cwd args).events) ∧
      (∀ path, Event.pipeFileToStdin path ∉ (handleRedirection cwd args).events) ∧
      Event.consoleError "Error: No input file specified" ∉
        (handleRedirection cwd args).events) ∧
    (∀ c a f b out post,
      args = (c :: (a ++ "<" :: f :: b)) ++ ">" :: out :: post →
      ">" ∉ c :: (a ++ "<" :: f :: b) → "<" ∉ c :: a → c ≠ "" → out ≠ "" →
      handleRedirection cwd args =
        { events := [Event.spawn (some c) (a ++ "<" :: f :: b) optsShell,
                     Event.createWriteStream out, Event.pipeStdoutToFile out,
                     Event.pipeStderrToShell],
          callback := some (Callback.closeFileRefresh out), cwd := cwd,
          completion := Completion.returned true } ∧
      optsShell.shell = true ∧
      f ∈ interpreterInputFiles (interpreterWords (some c) (a ++ "<" :: f :: b))) := by
  refine ⟨?_, ?_⟩
  swap
  · intro c a f b out post e hg hl hc ho
    subst e
    rw [handleRedirection_of_output cwd _ _ hg]
    exact ⟨redirectOutput_spawns cwd c out _ post hc ho, rfl,
      mem_interpreterInputFiles (c :: a) b f hl⟩
  obtain ⟨pre, post, e, hpre⟩ := exists_first_occurrence ">" args hgt
  subst e
  have hidx := indexOf_first ">" pre post hpre
  have hh := handleRedirection_of_output cwd pre post hpre
  have hslice : slice (pre ++ ">" :: post) 0 (pre.length : Int) = pre :=
    slice_zero_length pre (">" :: post)
  have hget : (pre ++ ">" :: post).get? pre.length = some ">" := by
    rw [List.get?_eq_getElem?, List.getElem?_append_right (le_refl _)]
    simp
  have hmem := fun e (he : e ∈ (handleRedirection cwd (pre ++ ">" :: post)).events) =>
    mem_redirectOutput_events cwd (pre ++ ">" :: post) (pre.length : Int) e (hh ▸ he)
  refine ⟨pre.length, hidx, hget, by simpa using hpre,
    by rw [hidx, hslice]; simp, hh, ?_, ?_, ?_, ?_⟩
  · intro file spawnArgs options hm
    have h := hmem _ hm
    rw [hslice, at?_zero, sliceFrom_one] at h
    simp only [List.take_left']
    simp only [reduceCtorEq, false_or, or_false, Event.spawn.injEq] at h
    exact h
  · intro path hm
    have h := hmem _ hm
    simp only [reduceCtorEq, false_or, or_false] at h
  · intro path hm
    have h := hmem _ hm
    simp only [reduceCtorEq, false_or, or_false] at h
  · intro hm
    have h := hmem _ hm
    simp only [reduceCtorEq, false_or, or_false, Event.consoleError.injEq] at h
    exact absurd h (by decide)

/-- Witness of C5 (amended) on `sort < in.txt > out.txt`: the command tokens include
the `<` that precedes the first `>`. -/
theorem handleRedirection_output_wins_witness :
    (">" ∈ ["sort", "<", "in.txt", ">", "out.txt"] ∧
      "<" ∈ ["sort", "<", "in.txt", ">", "out.txt"]) ∧
    (∃ i : Nat,
      indexOf ["sort", "<", "in.txt", ">", "out.txt"] ">" = (i : Int) ∧
      handleRedirection "/home" ["sort", "<", "in.txt", ">", "out.txt"] =
        redirectOutput "/home" ["sort", "<", "in.txt", ">", "out.txt"] (i : Int)) ∧
    ((">" ∉ "sort" :: ([] ++ "<" :: "in.txt" :: []) ∧ "<" ∉ "sort" :: [] ∧
        ("sort" : String) ≠ "" ∧ ("out.txt" : String) ≠ "") ∧
      handleRedirection "/home" ["sort", "<", "in.txt", ">", "out.txt"] =
        { events := [Event.spawn (some "sort") ([] ++ "<" :: "in.txt" :: []) optsShell,
                     Event.createWriteStream "out.txt", Event.pipeStdoutToFile "out.txt",
                     Event.pipeStderrToShell],
          callback := some (Callback.closeFileRefresh "out.txt"), cwd := "/home",
          completion := Completion.returned true } ∧
      "in.txt" ∈ interpreterInputFiles
        (interpreterWords (some "sort") ([] ++ "<" :: "in.txt" :: []))) :=
  ⟨by decide,
   (handleRedirection_output_wins "/home" ["sort", "<", "in.txt", ">", "out.txt"]
      (by decide) (by decide)).1.imp (fun _ h => ⟨h.1, h.2.2.2.2.1⟩),
   by decide,
   have h := (handleRedirection_output_wins "/home" ["sort", "<", "in.txt", ">", "out.txt"]
      (by decide) (by decide)).2 "sort" [] "in.txt" [] "out.txt" [] rfl
      (by decide) (by decide) (by decide) (by decide)
   ⟨h.1, h.2.2⟩⟩

/-- C6 (evaluation at the failing inputs): on a line made of whitespace only, the
token sequence is empty and no built-in runs, but the line handler calls `spawn`
with an undefined command, which throws; the prompt is not shown again. -/
theorem onLine_blank_line_throws (P : Platform) (cwd line : String)
    (h : ∀ c ∈ line.data, isJsWhitespace c = true) :
    parseInput (trim line) = [] ∧
    onLine P cwd line =
      { events := [Event.spawn none [] optsInherit], callback := none, cwd := cwd,
        completion := Completion.threw spawnTypeError } := by
  have e : trim line = "" := by
    simp [trim, trimChars_of_all_whitespace _ h]
  constructor
  · rw [e]
    rfl
  · unfold onLine
    rw [e]
    rfl

/-- Witness of C6 on the empty line and on a line of blanks and a tab. -/
theorem onLine_blank_line_throws_witness :
    (∀ c ∈ ("" : String).data, isJsWhitespace c = true) ∧
    onLine demoPlatform "/home" "" =
      { events := [Event.spawn none [] optsInherit], callback := none, cwd := "/home",
        completion := Completion.threw spawnTypeError } ∧
    (∀ c ∈ (" \t " : String).data, isJsWhitespace c = true) ∧
    onLine demoPlatform "/home" " \t " =
      { events := [Event.spawn none [] optsInherit], callback := none, cwd := "/home",
        completion := Completion.threw spawnTypeError } :=
  ⟨by decide, (onLine_blank_line_throws demoPlatform "/home" "" (by decide)).2,
   by decide, (onLine_blank_line_throws demoPlatform "/home" " \t " (by decide)).2⟩

/-- C7 (evaluation at the failing input): the line `echo hi` prints `hi` and ends
there: no prompt call is made and no callback is left that could make one, whereas
the sibling built-in `cd` refreshes the prompt before returning. -/
theorem onLine_echo_no_prompt (P : Platform) (cwd : String) :
    onLine P cwd "echo hi" =
      { events := [Event.consoleLog "hi"], callback := none, cwd := cwd,
        completion := Completion.returned () } ∧
    Event.prompt ∉ (onLine P cwd "echo hi").events ∧
    onLine P cwd "cd" =
      { events := [Event.consoleLog "No directory specified",
                   Event.setPrompt (promptText cwd), Event.prompt],
        callback := none, cwd := cwd, completion := Completion.returned () } := by
  have h : onLine P cwd "echo hi" =
      { events := [Event.consoleLog "hi"], callback := none, cwd := cwd,
        completion := Completion.returned () } := rfl
  refine ⟨h, ?_, rfl⟩
  rw [h]
  simp

/-- C8 (evaluation at the failing input): on the line `> out.txt` the command token
list before the operator is empty, the line handler calls `spawn` with an undefined
command name, and the `TypeError` thrown by `spawn` leaves the handler uncaught. -/
theorem onLine_operator_first_throws (P : Platform) (cwd : String) :
    parseInput (trim "> out.txt") = [">", "out.txt"] ∧
    onLine P cwd "> out.txt" =
      { events := [Event.spawn none [] optsShell], callback := none, cwd := cwd,
        completion := Completion.threw spawnTypeError } ∧
    spawnAccepts none = false := by
  exact ⟨by decide, rfl, rfl⟩

/-- C9: `cd` without argument reports `No directory specified` and keeps the working
directory; `cd` to a target the platform refuses reports `Error: ` followed by the
platform message and keeps the working directory, and the prompt shown is that of
the old directory; `cd` to a target the platform accepts shows the prompt of the new
directory.  In each case the prompt is set and shown once, after the report, and
no process is spawned. -/
theorem cd_outcomes (P : Platform) (d : String) :
    handleBuiltIn P d (some "cd") [] =
      { events := [Event.consoleLog "No directory specified",
                   Event.setPrompt ("cmShell " ++ d ++ "> "), Event.prompt],
        callback := none, cwd := d, completion := Completion.returned true } ∧
    (∀ target rest msg, target ≠ "" → P.chdir d target = Except.error msg →
      handleBuiltIn P d (some "cd") (target :: rest) =
        { events := [Event.chdir target, Event.consoleError ("Error: " ++ msg),
                     Event.setPrompt ("cmShell " ++ d ++ "> "), Event.prompt],
          callback := none, cwd := d, completion := Completion.returned true }) ∧
    (∀ target rest d2, target ≠ "" → P.chdir d target = Except.ok d2 →
      handleBuiltIn P d (some "cd") (target :: rest) =
        { events := [Event.chdir target,
                     Event.setPrompt ("cmShell " ++ d2 ++ "> "), Event.prompt],
          callback := none, cwd := d2, completion := Completion.returned true }) := by
  have hcd : (some "cd" : Option String) ≠ some "exit" ∧
      (some "cd" : Option String) ≠ some "echo" := by decide
  refine ⟨?_, ?_, ?_⟩
  · simp [handleBuiltIn, hcd.1, hcd.2, at?_zero, changeDirectory, updatePrompt, promptText,
      truthy]
  · intro target rest msg ht hp
    simp [handleBuiltIn, hcd.1, hcd.2, at?_zero, changeDirectory, updatePrompt, promptText,
      truthy, ht, hp]
  · intro target rest d2 ht hp
    simp [handleBuiltIn, hcd.1, hcd.2, at?_zero, changeDirectory, updatePrompt, promptText,
      truthy, ht, hp]

/-- Witness of C9 on a directory that does not exist and on one that does. -/
theorem cd_outcomes_witness :
    (("/nowhere" : String) ≠ "" ∧
      demoPlatform.chdir "/home" "/nowhere" =
        Except.error "ENOENT: no such file or directory, chdir /nowhere") ∧
    handleBuiltIn demoPlatform "/home" (some "cd") ["/nowhere"] =
      { events := [Event.chdir "/nowhere",
                   Event.consoleError
                     ("Error: " ++ "ENOENT: no such file or directory, chdir /nowhere"),
                   Event.setPrompt ("cmShell " ++ "/home" ++ "> "), Event.prompt],
        callback := none, cwd := "/home", completion := Completion.returned true } ∧
    (("/tmp" : String) ≠ "" ∧ demoPlatform.chdir "/home" "/tmp" = Except.ok "/tmp") ∧
    handleBuiltIn demoPlatform "/home" (some "cd") ["/tmp"] =
      { events := [Event.chdir "/tmp",
                   Event.setPrompt ("cmShell " ++ "/tmp" ++ "> "), Event.prompt],
        callback := none, cwd := "/tmp", completion := Completion.returned true } :=
  ⟨⟨by decide, rfl⟩,
   (cd_outcomes demoPlatform "/home").2.1 "/nowhere" [] _ (by decide) rfl,
   ⟨by decide, rfl⟩,
   (cd_outcomes demoPlatform "/home").2.2 "/tmp" [] "/tmp" (by decide) rfl⟩

/-- C10 (counterexample): with tabs between the words, the line `echo a<TAB>b<TAB>c`
has the whitespace-separated tokens `echo`, `a`, `b`, `c` but prints
`a<TAB>b<TAB>c`, not `a b c`; and the line `echo<TAB>a b c`, whose first
whitespace-separated token is `echo`, prints nothing and spawns a process. -/
theorem echo_tab_counterexample :
    tokenizeSpec "echo a\tb\tc" = ["echo", "a", "b", "c"] ∧
    onLine demoPlatform "/home" "echo a\tb\tc" =
      { events := [Event.consoleLog "a\tb\tc"], callback := none, cwd := "/home",
        completion := Completion.returned () } ∧
    onLine demoPlatform "/home" "echo a\tb\tc" ≠
      { events := [Event.consoleLog "a b c"], callback := none, cwd := "/home",
        completion := Completion.returned () } ∧
    tokenizeSpec "echo\ta b c" = ["echo", "a", "b", "c"] ∧
    onLine demoPlatform "/home" "echo\ta b c" =
      { events := [Event.spawn (some "echo\ta") ["b", "c"] optsInherit],
        callback := some Callback.closeRefresh, cwd := "/home",
        completion := Completion.returned () } := by
  decide

/-- C10 (amended): a line whose first token, as the shell derives its tokens, is
`echo` and that holds no `>` or `<` token makes exactly one call, `console.log` of
the remaining tokens joined by single spaces (the empty string when there are
none), which writes that text and one newline; no process is spawned.  In
particular `echo a b c`, written with whitespace of any kind around the line and
any number of spaces between the words, prints `a b c`. -/
theorem echo_prints_joined_tokens (P : Platform) (cwd : String) :
    (∀ line rest, parseInput (trim line) = "echo" :: rest → ">" ∉ rest → "<" ∉ rest →
      onLine P cwd line =
        { events := [Event.consoleLog (join rest " ")], callback := none, cwd := cwd,
          completion := Completion.returned () } ∧
      (onLine P cwd line).events.map Event.stdoutText = [join rest " " ++ "\n"]) ∧
    join [] " " = "" ∧
    (∀ (lead trail : List Char) (b c d : Nat),
      (∀ x ∈ lead, isJsWhitespace x = true) → (∀ x ∈ trail, isJsWhitespace x = true) →
      onLine P cwd (String.mk lead ++ "echo" ++ spaces (b + 1) ++ "a" ++ spaces (c + 1)
        ++ "b" ++ spaces (d + 1) ++ "c" ++ String.mk trail) =
        { events := [Event.consoleLog "a b c"], callback := none, cwd := cwd,
          completion := Completion.returned () }) := by
  have main : ∀ line rest, parseInput (trim line) = "echo" :: rest → ">" ∉ rest →
      "<" ∉ rest →
      onLine P cwd line =
        { events := [Event.consoleLog (join rest " ")], callback := none, cwd := cwd,
          completion := Completion.returned () } := by
    intro line rest hl hgt hlt
    have h1 : ">" ∉ "echo" :: rest := by
      simp only [List.mem_cons, not_or]
      exact ⟨by decide, hgt⟩
    have h2 : "<" ∉ "echo" :: rest := by
      simp only [List.mem_cons, not_or]
      exact ⟨by decide, hlt⟩
    have hne : (some "echo" : Option String) ≠ some "exit" := by decide
    rw [onLine_of_no_operator P cwd line _ hl h1 h2, at?_zero, sliceFrom_one]
    simp [handleBuiltIn, hne, Run.discard]
  refine ⟨fun line rest hl hgt hlt => ⟨main line rest hl hgt hlt, ?_⟩, rfl, ?_⟩
  · rw [main line rest hl hgt hlt]
    rfl
  · intro lead trail b c d hl ht
    rw [main _ ["a", "b", "c"] (parseInput_echo_a_b_c lead trail b c d hl ht)
      (by decide) (by decide)]
    rfl

/-- Witness of C10 (amended) on the line `  echo   a  b   c ` and on the same words
between a leading tab and a trailing tab. -/
theorem echo_prints_joined_tokens_witness :
    (parseInput (trim "  echo   a  b   c ") = "echo" :: ["a", "b", "c"] ∧
      ">" ∉ ["a", "b", "c"] ∧ "<" ∉ ["a", "b", "c"]) ∧
    onLine demoPlatform "/home" "  echo   a  b   c " =
      { events := [Event.consoleLog (join ["a", "b", "c"] " ")], callback := none,
        cwd := "/home", completion := Completion.returned () } ∧
    join ["a", "b", "c"] " " = "a b c" ∧
    ((∀ x ∈ ['\t', ' '], isJsWhitespace x = true) ∧
      (∀ x ∈ [' ', '\t'], isJsWhitespace x = true)) ∧
    onLine demoPlatform "/home" (String.mk ['\t', ' '] ++ "echo" ++ spaces (0 + 1) ++ "a"
        ++ spaces (2 + 1) ++ "b" ++ spaces (1 + 1) ++ "c" ++ String.mk [' ', '\t']) =
      { events := [Event.consoleLog "a b c"], callback := none, cwd := "/home",
        completion := Completion.returned () } :=
  ⟨by decide,
   ((echo_prints_joined_tokens demoPlatform "/home").1 "  echo   a  b   c " ["a", "b", "c"]
      (by decide) (by decide) (by decide)).1,
   by decide,
   ⟨by decide, by decide⟩,
   (echo_prints_joined_tokens demoPlatform "/home").2.2 ['\t', ' '] [' ', '\t'] 0 2 1
      (by decide) (by decide)⟩

end CmShell
